import Mathlib

/-!
Verification of the RINEX observation readers of the geodezyx toolbox
(source file src/geodezyx/files_rw/read_rinex.py).

Modelling conventions.
A text file is a list of lines; each line is a list of characters with its
trailing newline removed (the source only ever uses the newline as a line
separator: v2 strips it explicitly, v3 joins the lines back and lets the
fixed-width reader re-split them).  Timestamps produced by the external
epoch indexer `operational.rinex_read_epoch` are opaque; they are modelled
as natural numbers.  The external epoch-line parser
`operational.read_rnx_epoch_line` is modelled as returning the raw line
(the spec places timestamp parsing outside the core).  The pandas
fixed-width reader `pd.read_fwf(B, header=None, widths=w)` is modelled at
two levels.  The slicing level: split the text into lines and cut each
line into `w`-sized slices (short lines yield short or empty slices).
The conversion level: pandas infers one dtype per column over the whole
read -- a column whose non-blank stripped fields all parse as numbers
becomes numeric with blanks as missing values, while a column containing
any non-blank unparseable field falls back to object dtype and keeps
every non-blank field as its stripped text (blanks still missing); this
full behaviour is `convertCol`/`fwfGrid` below.  The reader pipeline
itself (`parseField`, `cellsOfMerged`, `parseLine3`) uses the per-field
numeric conversion, which coincides with the pandas conversion exactly
when every non-blank field of each column parses as a number -- the case
of well-formed RINEX observation data (the agreement is proved in the
amended C7 theorem); on a column with unparseable text the pipeline
model's missing value stands in for the object-dtype string pandas would
keep.  `DataFrame.set_index`
follows pandas defaults (`verify_integrity=False`: duplicate keys are
accepted), and `pd.concat(..., axis=1)` aligns its operands on their row
index (outer join of the index labels, first-appearance order).
-/

namespace Rnx

/-- A line of text, without its trailing newline. -/
abbrev Line := List Char

/-- Blanks removed on the left. -/
def ltrim (l : Line) : Line := l.dropWhile (· = ' ')

/-- Python str.strip: blanks removed on both sides (RINEX uses spaces only). -/
def trim (l : Line) : Line := ((ltrim l).reverse.dropWhile (· = ' ')).reverse

/-- Worker of `splitWs`: `tok` is the (reversed) token being read. -/
def splitWsGo : Line → Line → List Line
  | [], tok => if tok = [] then [] else [tok.reverse]
  | c :: rest, tok =>
    if c = ' ' then
      if tok = [] then splitWsGo rest []
      else tok.reverse :: splitWsGo rest []
    else splitWsGo rest (c :: tok)

/-- Python str.split with no argument: tokens separated by runs of blanks. -/
def splitWs (l : Line) : List Line := splitWsGo l []

/-- Numeric value of a digit string (most significant digit first). -/
def digitsVal (l : Line) : Nat := l.foldl (fun a c => a * 10 + (c.toNat - 48)) 0

/-- Python int() on a single token: all characters must be digits.  Header
counts in RINEX are unsigned, so signs are not modelled. -/
def parseNatTok (l : Line) : Option Nat :=
  if l ≠ [] ∧ l.all Char.isDigit then some (digitsVal l) else none

/-- Python int() on a slice: surrounding blanks are tolerated. -/
def parseNatTrim (l : Line) : Option Nat := parseNatTok (trim l)

/-- Python float() on a plain decimal literal (`[+-]digits[.digits]`, at
least one digit), the only numeric shape RINEX observation fields carry;
anything else fails. -/
def parseDecimal (l : Line) : Option Rat :=
  let sl : Int × Line :=
    match l with
    | '+' :: r => (1, r)
    | '-' :: r => (-1, r)
    | r => (1, r)
  let d1 := sl.2.takeWhile Char.isDigit
  let r1 := sl.2.dropWhile Char.isDigit
  match r1 with
  | [] => if d1 = [] then none else some ((sl.1 * (digitsVal d1 : Int) : Int) : Rat)
  | '.' :: r2 =>
    let d2 := r2.takeWhile Char.isDigit
    if r2.dropWhile Char.isDigit = [] ∧ d1 ++ d2 ≠ [] then
      some (mkRat (sl.1 * (digitsVal (d1 ++ d2) : Int)) (10 ^ d2.length))
    else none
  | _ => none

/-- Conversion of one fixed-width field: strip blanks, then parse a number;
a blank or unparseable field becomes a missing value. -/
def parseField (l : Line) : Option Rat := parseDecimal (trim l)

/-- Cut a line into consecutive slices of the given widths (a short line
yields short or empty tail slices, as Python slicing does). -/
def sliceWidths : List Nat → Line → List Line
  | [], _ => []
  | w :: ws, l => l.take w :: sliceWidths ws (l.drop w)

/-- Python `nobs*[14,1,1]`: the repeating (value, LLI, SSI) width groups. -/
def widthsRep (n : Nat) : List Nat := (List.replicate n [14, 1, 1]).flatten

/-- Suffix "_LLI" for loss-of-lock indicator columns. -/
def lliSuf : Line := (r"_LLI").toList

/-- Suffix "_SSI" for signal-strength indicator columns. -/
def ssiSuf : Line := (r"_SSI").toList

/-- The (value, LLI, SSI) column-name triples of a list of observable
codes, in declaration order. -/
def tripleNames (codes : List Line) : List Line :=
  (codes.map (fun e => [e, e ++ lliSuf, e ++ ssiSuf])).flatten

/-- Python string comparison: lexicographic by code point. -/
def lineLe : Line → Line → Bool
  | [], _ => true
  | _ :: _, [] => false
  | a :: as, b :: bs =>
    if a.toNat < b.toNat then true
    else if b.toNat < a.toNat then false
    else lineLe as bs

/-- Python sorted() on strings (a stable sort; `insertionSort` keeps the
original order of equal names). -/
def sortLex (names : List Line) : List Line :=
  names.insertionSort (fun a b => lineLe a b = true)

/-- Python `pat in l`: substring containment. -/
def containsSub (pat : Line) : Line → Bool
  | [] => pat.isEmpty
  | c :: rest => pat.isPrefixOf (c :: rest) || containsSub pat rest

/-- The header terminator marker. -/
def eohMark : Line := (r"END OF HEADER").toList

/-- The RINEX 2 observable-declaration marker. -/
def obsMark2 : Line := (r"# / TYPES OF OBSERV").toList

/-- The RINEX 3/4 observable-declaration marker. -/
def sysMark3 : Line := (r"SYS / # / OBS TYPES").toList

/-- Index of the first line containing "END OF HEADER" (the Python loop
with break; reaching the end of file leaves the index unbound, which
raises). -/
def findEOH (lines : List Line) : Option Nat := lines.findIdx? (containsSub eohMark)

/-- Errors: any Python exception escaping the reader aborts the whole
parse.  Distinct constructors record the distinct abort sites; only the
header-terminator one is distinguished by the specification. -/
inductive Err where
  | malformedHeader
  | badObsHeader
  | columnMismatch
  | noEpochs
  | epochSatMissing
  | badSysHeader
  | noSystems
  | keyMissing
deriving DecidableEq

/-- Matcher for the epoch-line regular expression of `_sats_find`,
`'^ {1,2}([0-9]{1,2} * ){5}'`: after one or two leading blanks, five
groups of one or two digits each followed by at least one blank.
`reGroups k` decides whether `k` such groups start here (with full
backtracking over the digit-count choice; a space run is always consumed
whole because the next group must start with a digit). -/
def reGroups : Nat → Line → Bool
  | 0, _ => true
  | _ + 1, [] => false
  | _ + 1, [_] => false
  | k + 1, c :: d :: rest =>
    if ¬ c.isDigit then false
    else if d.isDigit then
      match rest with
      | ' ' :: r => reGroups k (r.dropWhile (· = ' '))
      | _ => false
    else if d = ' ' then reGroups k (rest.dropWhile (· = ' '))
    else false

/-- Anchored match of the `_sats_find` epoch-line pattern. -/
def epochReMatch : Line → Bool
  | ' ' :: r =>
    reGroups 5 r ||
      (match r with
       | ' ' :: r2 => reGroups 5 r2
       | _ => false)
  | _ => false

/-- Split the concatenated satellite text into `n` three-character PRN
tokens, `lineconcat[3*n:3*n+3]`. -/
def chunk3 (s : Line) (n : Nat) : List Line :=
  (List.range n).map (fun k => (s.drop (3 * k)).take 3)

/-- Loop state of `_sats_find`: satellite count, number of
satellite-holding lines, lines consumed so far, accumulated PRN text, and
the epoch line. -/
structure SFState where
  nsat : Nat
  nlines : Nat
  iline : Nat
  cat : Line
  epocLine : Line

/-- One pass of the `_sats_find` scan.  Before the first epoch line the
state is `none` (the Python sentinel `nlines_bloc = -1` makes both guards
false).  A failing satellite-count parse on an epoch line raises in
Python; falling off the end returns Python None, which the caller's tuple
unpacking also turns into an exception -- both are `none` here. -/
def satsFindGo : List Line → Nat → Option SFState → Option (Line × Nat × Line × List Line × Nat)
  | [], _, _ => none
  | l :: rest, il, st0 =>
    let st1 : Option (Option SFState) :=
      if epochReMatch l then
        match parseNatTrim ((l.drop 30).take 2) with
        | some n => some (some ⟨n, (n + 11) / 12, 0, [], l⟩)
        | none => none
      else some st0
    match st1 with
    | none => none
    | some none => satsFindGo rest (il + 1) none
    | some (some s) =>
      if s.iline ≤ s.nlines then
        let cat2 := s.cat ++ trim (l.drop 32)
        if s.iline + 1 = s.nlines then
          some (s.epocLine, s.nsat, cat2, chunk3 cat2 s.nsat, il)
        else satsFindGo rest (il + 1) (some ⟨s.nsat, s.nlines, s.iline + 1, cat2, s.epocLine⟩)
      else satsFindGo rest (il + 1) (some s)

/-- The `_sats_find` helper: decode the EPOCH/SAT record of one RINEX 2
epoch block, returning the epoch line (standing in for the externally
parsed timestamp), the satellite count, the concatenated PRN text, the
PRN list, and the index of the last satellite-holding line. -/
def satsFind (ls : List Line) : Option (Line × Nat × Line × List Line × Nat) :=
  satsFindGo ls 0 none

/-- One output row of the RINEX 2 reader.  `cells` holds the parsed
(value, LLI, SSI) fields in their physical (declaration) order; the
column name of `cells[j]` is entry `j` of the table's sorted name list
(the positional renaming `DFepoch.columns = ObsAllList`). -/
structure Row2 where
  epoch : Nat
  sys : Option Char
  prn : Line
  cells : List (Option Rat)
deriving DecidableEq

/-- The RINEX 2 output table: the sorted observable column names plus the
rows (each row also carrying its epoch, sys and prn columns, the
`reindex` column order). -/
structure Table2 where
  names : List Line
  rows : List Row2
deriving DecidableEq

/-- Parse one merged observation record as `nobs` repetitions of
(14,1,1)-width fields, in declaration order. -/
def cellsOfMerged (nobs : Nat) (merged : Line) : List (Option Rat) :=
  (sliceWidths (widthsRep nobs) merged).map parseField

/-- The merged record of satellite `n`: its `ceil(nobs/5)` physical lines
concatenated (`m` is that line count). -/
def mergedRecord (obsLines : List Line) (m n : Nat) : Line :=
  ((obsLines.drop (m * n)).take m).flatten

/-- Row of satellite `n` of one epoch block. -/
def mkRow2 (nobs : Nat) (ep : Nat) (sats : List Line) (obsLines : List Line) (m n : Nat) : Row2 :=
  let p := sats.getD n []
  ⟨ep, p.head?, p, cellsOfMerged nobs (mergedRecord obsLines m n)⟩

/-- Decode one RINEX 2 epoch block: find the satellites, then cut the
remaining lines into `nsat` records of `ceil(nobs/5)` lines each. -/
def epochRows2 (nobs : Nat) (ep : Nat) (block : List Line) : Option (List Row2) :=
  match satsFind block with
  | none => none
  | some (_, nsat, _, sats, ilend) =>
    let obsLines := block.drop (ilend + 1)
    some ((List.range nsat).map (mkRow2 nobs ep sats obsLines ((nobs + 4) / 5)))

/-- Start line and one-past-end line of epoch block `i` (the last block
runs to end of file).  The Python upper slice bound is an absolute file
index, always at least the block length, so it clamps to the block end. -/
def blockBounds (lines : List Line) (epochs : List (Nat × Nat)) (i : Nat) : Nat × Nat :=
  ((epochs.getD i (0, 0)).2,
   if i + 1 < epochs.length then (epochs.getD (i + 1) (0, 0)).2 else lines.length)

/-- The lines of RINEX 2 epoch block `i` (epoch line included). -/
def blockOf2 (lines : List Line) (epochs : List (Nat × Nat)) (i : Nat) : List Line :=
  (lines.drop (blockBounds lines epochs i).1).take
    ((blockBounds lines epochs i).2 - (blockBounds lines epochs i).1)

/-- A column selector for the caller-supplied `set_index` argument. -/
inductive ColSel where
  | epoch
  | sys
  | prn
  | obs (name : Line)
deriving DecidableEq

/-- A key component: the value a row holds under one selected column. -/
inductive KeyVal where
  | kNat (v : Option Nat)
  | kChar (v : Option Char)
  | kStr (v : Option Line)
  | kRat (v : Option Rat)
deriving DecidableEq

/-- Pandas ordering on a column with missing values: NaN sorts last. -/
def optLe (le : α → α → Bool) : Option α → Option α → Bool
  | none, none => true
  | none, some _ => false
  | some _, none => true
  | some a, some b => le a b

/-- Ordering of two key components of the same column. -/
def kvLe : KeyVal → KeyVal → Bool
  | .kNat a, .kNat b => optLe (fun x y => decide (x ≤ y)) a b
  | .kChar a, .kChar b => optLe (fun x y => decide (x.toNat ≤ y.toNat)) a b
  | .kStr a, .kStr b => optLe lineLe a b
  | .kRat a, .kRat b => optLe (fun x y => decide (x ≤ y)) a b
  | _, _ => true

/-- Lexicographic ordering of composite keys. -/
def keysLe : List KeyVal → List KeyVal → Bool
  | [], _ => true
  | _ :: _, [] => false
  | a :: as, b :: bs =>
    if kvLe a b && !(kvLe b a) then true
    else if kvLe b a && !(kvLe a b) then false
    else keysLe as bs

/-- Observable cell of a RINEX 2 row under a column name: the field at the
name's position in the sorted name list. -/
def cellVal2 (names : List Line) (r : Row2) (nm : Line) : Option Rat :=
  match names.indexOf? nm with
  | some j => r.cells.getD j none
  | none => none

/-- Whether a selected column exists in a RINEX 2 table. -/
def selValid2 (names : List Line) : ColSel → Bool
  | .epoch => true
  | .sys => true
  | .prn => true
  | .obs nm => names.contains nm

/-- The composite key of a RINEX 2 row under the selected columns. -/
def keyOf2 (names : List Line) (sels : List ColSel) (r : Row2) : List KeyVal :=
  sels.map fun s =>
    match s with
    | .epoch => .kNat (some r.epoch)
    | .sys => .kChar r.sys
    | .prn => .kStr (some r.prn)
    | .obs nm => .kRat (cellVal2 names r nm)

/-- Row order of the final v2 sort: ascending by (epoch, prn). -/
def rowLe2 (a b : Row2) : Bool :=
  if a.epoch < b.epoch then true
  else if b.epoch < a.epoch then false
  else lineLe a.prn b.prn

/-- The optional re-key step shared by both readers' tails: `if set_index:`
is Python truthiness (an empty selector list is falsy and skipped); a
selector naming an absent column raises KeyError; duplicate keys are
accepted (pandas `set_index` does not verify uniqueness) and `sort_index`
sorts by the key. -/
def applyIdx2 (setIdx : Option (List ColSel)) (t : Table2) : Except Err Table2 :=
  match setIdx with
  | none => .ok t
  | some sels =>
    if sels.isEmpty then .ok t
    else if sels.all (selValid2 t.names) then
      .ok ⟨t.names,
        t.rows.insertionSort
          (fun a b => keysLe (keyOf2 t.names sels a) (keyOf2 t.names sels b) = true)⟩
    else .error .keyMissing

/-- The observable-declaration tokens of a RINEX 2 header: every header
line carrying the marker, truncated to its first 60 columns, joined and
split on blanks. -/
def obsTokens2 (lines : List Line) (iEnd : Nat) : List Line :=
  (((lines.take (iEnd + 1)).filter (containsSub obsMark2)).map
    (fun l => l.take 60) |>.map splitWs).flatten

/-- Embedding of `read_rinex2_obs`.  `lines` is the file, `epochs` the
externally supplied epoch index (timestamp, line offset), `setIdx` the
`set_index` argument.  Python exception sites become errors: no header
terminator (NameError), no observable tokens (IndexError), unparseable
count (ValueError), a count that disagrees with the code-list length
(pandas column-assignment ValueError at the first epoch), an empty epoch
index (`pd.concat` of no objects), and a block whose EPOCH/SAT record is
not found (TypeError on unpacking None). -/
def rawTable2 (lines : List Line) (epochs : List (Nat × Nat)) : Except Err Table2 :=
  match findEOH lines with
  | none => .error .malformedHeader
  | some iEnd =>
    match obsTokens2 lines iEnd with
    | [] => .error .badObsHeader
    | t0 :: codes =>
      match parseNatTok t0 with
      | none => .error .badObsHeader
      | some nobs =>
        if codes.length ≠ nobs then .error .columnMismatch
        else if epochs.isEmpty then .error .noEpochs
        else
          match (List.range epochs.length).mapM
              (fun i => epochRows2 nobs (epochs.getD i (0, 0)).1 (blockOf2 lines epochs i)) with
          | none => .error .epochSatMissing
          | some rowss =>
            .ok ⟨sortLex (tripleNames codes), rowss.flatten.insertionSort (fun a b => rowLe2 a b = true)⟩

/-- The full `read_rinex2_obs`: the flat sorted table, then the optional
re-key step. -/
def read_rinex2_obs (lines : List Line) (epochs : List (Nat × Nat))
    (setIdx : Option (List ColSel)) : Except Err Table2 :=
  match rawTable2 lines epochs with
  | .error e => .error e
  | .ok t => applyIdx2 setIdx t

/-- Merge loop for multi-line `SYS / # / OBS TYPES` declarations,
reproducing the Python `for il,l in enumerate(Lines_sys)` body that
mutates the list it iterates: a line starting with a blank is appended to
the line before it and then removed (first equal occurrence), after which
the iterator continues at the next position of the shrunken list, so the
element that slid into the removed slot is skipped.  A blank-starting
first line appends to the last element (Python index -1). -/
def mergeSysGo : Nat → List Line → Nat → List Line
  | 0, ls, _ => ls
  | fuel + 1, ls, i =>
    if i < ls.length then
      let l := ls.getD i []
      if l.headD 'x' = ' ' then
        let ip := if i = 0 then ls.length - 1 else i - 1
        mergeSysGo fuel ((ls.set ip (ls.getD ip [] ++ l)).erase l) (i + 1)
      else mergeSysGo fuel ls (i + 1)
    else ls

/-- The Python loop `for il,l in enumerate(Lines_sys)` over the system
declaration lines.  The fuel, the initial list length, bounds the
iteration count: the position advances by one per step and the list never
grows, so the fuel cannot run out before the loop ends. -/
def mergeSysLines (ls : List Line) : List Line := mergeSysGo ls.length ls 0

/-- One system's catalog entry: the key (first token of its merged header
line), the declared observable count (second token), and the observable
codes (remaining tokens), in insertion order. -/
structure SysEntry where
  key : Line
  cnt : Nat
  codes : List Line
deriving DecidableEq

/-- Python dict insertion: an existing key is overwritten in place, a new
key is appended. -/
def insertSys (d : List SysEntry) (e : SysEntry) : List SysEntry :=
  if d.any (fun x => x.key == e.key) then
    d.map (fun x => if x.key == e.key then e else x)
  else d ++ [e]

/-- Build the per-system dictionaries from the merged declaration lines:
`Sysobs[0]` is the key, `int(Sysobs[1])` the declared count, the rest the
codes.  Fewer than two tokens (IndexError) or an unparseable count
(ValueError) abort.  The declared-count/code-list length mismatch only
prints a warning and is ignored. -/
def buildDictGo : List Line → List SysEntry → Except Err (List SysEntry)
  | [], d => .ok d
  | l :: ls, d =>
    match splitWs l with
    | k :: c :: codes =>
      match parseNatTok c with
      | some n => buildDictGo ls (insertSys d ⟨k, n, codes⟩)
      | none => .error .badSysHeader
    | _ => .error .badSysHeader

/-- The dictionary-building loop started on an empty dictionary. -/
def buildDict (ls : List Line) : Except Err (List SysEntry) := buildDictGo ls []

/-- One output row of the RINEX 3/4 reader.  `sysKey` is the declared
system whose column list labels the cells (none on a row materialised
purely by index alignment, whose pandas cells are all NaN and whose
`cells` list is empty here); `cells` holds that system's own
(value, LLI, SSI) fields in declaration order, truncated to
`3 * codes.length`. -/
structure Row3 where
  epoch : Option Nat
  sys : Option Char
  prn : Option Line
  sysKey : Option Line
  cells : List (Option Rat)
deriving DecidableEq

/-- The RINEX 3 output table: the system catalog (the column schema) plus
the rows. -/
structure Table3 where
  dict : List SysEntry
  rows : List Row3
deriving DecidableEq

/-- Fixed-width parse of one RINEX 3 body line: a 3-character PRN field
(stripped, as pandas does for string columns) then `nmax` repetitions of
(14,1,1) numeric fields. -/
def parseLine3 (nmax : Nat) (l : Line) : Line × List (Option Rat) :=
  (trim (l.take 3), (sliceWidths (widthsRep nmax) (l.drop 3)).map parseField)

/-- Row content for one parsed line selected by system `e`: the columns
kept are `prn` plus the first `3 * codes.length` parsed fields
(`iloc[:, :len(dict_sys_use[sys])]`). -/
def mkRow3 (e : SysEntry) (pc : Line × List (Option Rat)) : Row3 :=
  ⟨none, pc.1.head?, some pc.1, some e.key, pc.2.take (3 * e.codes.length)⟩

/-- Per-system selection of one epoch's parsed lines, in dictionary order,
keyed by the original line position (the pandas row index):
`DFepoch[DFepoch[0].str[0] == sys]` keeps the lines whose PRN's first
character equals the system key. -/
def groupedOf (dict : List SysEntry) (parsed : List (Line × List (Option Rat))) :
    List (Nat × Row3) :=
  dict.flatMap (fun e =>
    (parsed.enum.filter (fun p => p.2.1.take 1 == e.key)).map
      (fun p => (p.1, mkRow3 e p.2)))

/-- Worker of `dedupFirst`: drop the labels already seen. -/
def dedupFirstGo : List Nat → List Nat → List Nat
  | [], _ => []
  | x :: xs, seen =>
    if x ∈ seen then dedupFirstGo xs seen
    else x :: dedupFirstGo xs (x :: seen)

/-- Union of index labels in first-appearance order (the pandas outer
join of row indexes with `sort=False`). -/
def dedupFirst (l : List Nat) : List Nat := dedupFirstGo l []

/-- Decode one RINEX 3 epoch block.  The epoch and sys columns are glued
on with `pd.concat(..., axis=1)`, which aligns on the row index: the
label set is the union of the fresh 0-based index of the epoch column and
the per-system selection's original line indices, in first-appearance
order; each label takes the epoch value only if it is below the selection
count, and takes the per-system row found under that label (a label
missing from the selection yields an all-NaN row). -/
def epochRows3 (dict : List SysEntry) (nmax : Nat) (ep : Nat) (block : List Line) :
    List Row3 :=
  let grouped := groupedOf dict (block.map (parseLine3 nmax))
  let labels := dedupFirst (List.range grouped.length ++ grouped.map Prod.fst)
  labels.map (fun k =>
    match grouped.lookup k with
    | some r => ⟨if k < grouped.length then some ep else none, r.sys, r.prn, r.sysKey, r.cells⟩
    | none => ⟨if k < grouped.length then some ep else none, none, none, none, []⟩)

/-- The lines of RINEX 3 epoch block `i`: one line after the epoch header
line, up to the next epoch's offset (last block to end of file). -/
def blockOf3 (lines : List Line) (epochs : List (Nat × Nat)) (i : Nat) : List Line :=
  (lines.drop ((blockBounds lines epochs i).1 + 1)).take
    ((blockBounds lines epochs i).2 - ((blockBounds lines epochs i).1 + 1))

/-- The merged system-declaration lines of a RINEX 3 header. -/
def sysLines3 (lines : List Line) (iEnd : Nat) : List Line :=
  mergeSysLines
    (((lines.take (iEnd + 1)).filter (containsSub sysMark3)).map (fun l => l.take 60))

/-- Observable cell of a RINEX 3 row under a column name: the field at the
name's position in the row's own system column list (missing when the row
has no such column, matching the NaN padding of the cross-system column
union). -/
def cellVal3 (dict : List SysEntry) (r : Row3) (nm : Line) : Option Rat :=
  match r.sysKey with
  | none => none
  | some k =>
    match dict.find? (fun e => e.key == k) with
    | none => none
    | some e =>
      match (tripleNames e.codes).indexOf? nm with
      | some j => r.cells.getD j none
      | none => none

/-- Whether a selected column exists in a RINEX 3 table. -/
def selValid3 (dict : List SysEntry) : ColSel → Bool
  | .epoch => true
  | .sys => true
  | .prn => true
  | .obs nm => dict.any (fun e => (tripleNames e.codes).contains nm)

/-- The composite key of a RINEX 3 row under the selected columns. -/
def keyOf3 (dict : List SysEntry) (sels : List ColSel) (r : Row3) : List KeyVal :=
  sels.map fun s =>
    match s with
    | .epoch => .kNat r.epoch
    | .sys => .kChar r.sys
    | .prn => .kStr r.prn
    | .obs nm => .kRat (cellVal3 dict r nm)

/-- The optional re-key step of the RINEX 3 reader (same pandas semantics
as the v2 one: truthiness, KeyError on an absent column, duplicate keys
accepted, sorted by key). -/
def applyIdx3 (setIdx : Option (List ColSel)) (t : Table3) : Except Err Table3 :=
  match setIdx with
  | none => .ok t
  | some sels =>
    if sels.isEmpty then .ok t
    else if sels.all (selValid3 t.dict) then
      .ok ⟨t.dict,
        t.rows.insertionSort
          (fun a b => keysLe (keyOf3 t.dict sels a) (keyOf3 t.dict sels b) = true)⟩
    else .error .keyMissing

/-- Embedding of `read_rinex3_obs`.  Python exception sites become
errors: no header terminator (NameError), a malformed merged declaration
line (IndexError / ValueError), an empty dictionary (`max()` of nothing),
an empty epoch index (`pd.concat` of no objects), and a system whose code
list is longer than `nobs_max` (pandas column-assignment ValueError at the
first epoch; checked up front, equivalent whenever at least one epoch
exists). -/
def rawTable3 (lines : List Line) (epochs : List (Nat × Nat)) : Except Err Table3 :=
  match findEOH lines with
  | none => .error .malformedHeader
  | some iEnd =>
    match buildDict (sysLines3 lines iEnd) with
    | .error e => .error e
    | .ok dict =>
      match (dict.map (fun e => e.cnt)).max? with
      | none => .error .noSystems
      | some nmax =>
        if epochs.isEmpty then .error .noEpochs
        else if dict.any (fun e => nmax < e.codes.length) then .error .columnMismatch
        else
          .ok ⟨dict,
            ((List.range epochs.length).map
              (fun i => epochRows3 dict nmax (epochs.getD i (0, 0)).1
                (blockOf3 lines epochs i))).flatten⟩

/-- The full `read_rinex3_obs`: the flat table in per-epoch order, then
the optional re-key step. -/
def read_rinex3_obs (lines : List Line) (epochs : List (Nat × Nat))
    (setIdx : Option (List ColSel)) : Except Err Table3 :=
  match rawTable3 lines epochs with
  | .error e => .error e
  | .ok t => applyIdx3 setIdx t

/-! Concrete input files used by witnesses and counterexamples. -/

/-- RINEX 2 header line declaring two observables, in the (unsorted)
declaration order L1, C1. -/
def hdrObs2 : Line :=
  (r"     2    L1    C1                                          # / TYPES OF OBSERV").toList

/-- A header-terminator line. -/
def hdrEoh : Line :=
  (r"                                                            END OF HEADER").toList

/-- RINEX 2 EPOCH/SAT line: 2 satellites, G02 listed before G01. -/
def epLine2 : Line := (r" 24  1  1  0  0  0.0000000  0  2G02G01").toList

/-- Observation record of the first listed satellite (G02): 1.5 in the
first declared field (L1), 2.5 in the second (C1). -/
def obsL2a : Line := (r"           1.5             2.5  ").toList

/-- Observation record of the second listed satellite (G01): 11.5 in the
first declared field (L1), 12.5 in the second (C1). -/
def obsL2b : Line := (r"          11.5            12.5  ").toList

/-- A small RINEX 2 observation file. -/
def fileA : List Line := [hdrObs2, hdrEoh, epLine2, obsL2a, obsL2b]

/-- Epoch index of `fileA`: one epoch, timestamp 5, at line 2. -/
def epochsA : List (Nat × Nat) := [(5, 2)]

/-- RINEX 3 header line: system G declares observables C1C, L1C. -/
def hdrSysG : Line :=
  (r"G    2 C1C L1C                                              SYS / # / OBS TYPES").toList

/-- RINEX 3 header line: system R declares observable C1C. -/
def hdrSysR : Line :=
  (r"R    1 C1C                                                  SYS / # / OBS TYPES").toList

/-- RINEX 3 epoch header line (content unused by the reader). -/
def epLine3 : Line := (r"> 2024 01 01 00 00  0.0000000  0  3").toList

/-- RINEX 3 body line for G01: C1C = 1.5, L1C = 2.5. -/
def satG01 : Line := (r"G01           1.5             2.5  ").toList

/-- RINEX 3 body line for R01: C1C = 7.5. -/
def satR01 : Line := (r"R01           7.5  ").toList

/-- RINEX 3 body line for G02: C1C = 11.5, L1C = 12.5. -/
def satG02 : Line := (r"G02          11.5            12.5  ").toList

/-- A small RINEX 3 observation file whose body interleaves the systems:
G01, R01, G02. -/
def fileB : List Line := [hdrSysG, hdrSysR, hdrEoh, epLine3, satG01, satR01, satG02]

/-- Epoch index of `fileB`: one epoch, timestamp 9, at the epoch header
line 3 (the body starts one line later). -/
def epochsB : List (Nat × Nat) := [(9, 3)]

/-- RINEX 3 header line of a system declaring 6 observables, first part. -/
def hdrSysX0 : Line :=
  (r"G    6 C1C L1C D1C                                          SYS / # / OBS TYPES").toList

/-- First continuation line (blank system field) of the 6-observable
declaration. -/
def hdrSysX1 : Line :=
  (r"       S1C C2W                                              SYS / # / OBS TYPES").toList

/-- Second continuation line (blank system field) of the 6-observable
declaration. -/
def hdrSysX2 : Line :=
  (r"       L2W D2W                                              SYS / # / OBS TYPES").toList

/-- A RINEX 3 file whose single system spans three declaration lines
(two continuation lines). -/
def fileC : List Line := [hdrSysX0, hdrSysX1, hdrSysX2, hdrEoh, epLine3, satG01]

/-- Epoch index of `fileC`. -/
def epochsC : List (Nat × Nat) := [(9, 4)]

/-- A file with no header-terminator line. -/
def fileD : List Line := [hdrObs2, epLine2, obsL2a, obsL2b]

/-- Epoch index handed to the readers together with `fileD`. -/
def epochsD : List (Nat × Nat) := [(5, 1)]

/-- RINEX 2 EPOCH/SAT line declaring 13 satellites; the first 12 PRNs
G01..G12 occupy columns 32-67. -/
def epLine13 : Line :=
  (r" 24  1  1  0  0  0.0000000  0 13G01G02G03G04G05G06G07G08G09G10G11G12").toList

/-- Continuation line of the 13-satellite list: PRN G13 at columns 32-34. -/
def epCont13 : Line :=
  (r"                                G13").toList

/-- Error of a RINEX 2 reader result, if any. -/
def err2Of (x : Except Err Table2) : Option Err :=
  match x with
  | .ok _ => none
  | .error e => some e

/-- Error of a RINEX 3 reader result, if any. -/
def err3Of (x : Except Err Table3) : Option Err :=
  match x with
  | .ok _ => none
  | .error e => some e

/-- Rows of a reader result (empty on error). -/
def rows2Of (x : Except Err Table2) : List Row2 :=
  match x with
  | .ok t => t.rows
  | .error _ => []

/-- Column names of a reader result (empty on error). -/
def names2Of (x : Except Err Table2) : List Line :=
  match x with
  | .ok t => t.names
  | .error _ => []

/-- Rows of a RINEX 3 reader result (empty on error). -/
def rows3Of (x : Except Err Table3) : List Row3 :=
  match x with
  | .ok t => t.rows
  | .error _ => []

/-- The observable codes a RINEX 2 header declares, in declaration order
(everything after the count token). -/
def codes2 (lines : List Line) : List Line :=
  match findEOH lines with
  | none => []
  | some iEnd => (obsTokens2 lines iEnd).drop 1

/-- The satellite count the EPOCH/SAT record of RINEX 2 epoch block `i`
declares (0 if the record is not found). -/
def satCount2 (lines : List Line) (epochs : List (Nat × Nat)) (i : Nat) : Nat :=
  match satsFind (blockOf2 lines epochs i) with
  | some q => q.2.1
  | none => 0

/-- The satellite count of RINEX 3 epoch block `i`: its number of body
lines (one line per satellite). -/
def satCount3 (lines : List Line) (epochs : List (Nat × Nat)) (i : Nat) : Nat :=
  (blockOf3 lines epochs i).length

/-- The system tag of a RINEX 3 body line: the first character (as a
one-character string) of its stripped 3-column PRN field, the value the
per-system selection compares with the dictionary key. -/
def sysTok (l : Line) : Line := (trim (l.take 3)).take 1

/-- Specification-side row of one RINEX 3 body line: the row the claimed
ordering assigns to the line -- its own system's truncated cells, epoch
attached (the fallback for a line of an undeclared system is never
reached under the no-dropped-line hypothesis). -/
def lineRow3 (dict : List SysEntry) (nmax ep : Nat) (l : Line) : Row3 :=
  match dict.find? (fun e => sysTok l == e.key) with
  | some e =>
    ⟨some ep, (parseLine3 nmax l).1.head?, some (parseLine3 nmax l).1, some e.key,
      (parseLine3 nmax l).2.take (3 * e.codes.length)⟩
  | none => ⟨some ep, none, none, none, []⟩

/-- Specification-side RINEX 3 row list: for each epoch in order, the
rows of the block's body lines in original line order. -/
def specRows3 (dict : List SysEntry) (nmax : Nat) (lines : List Line)
    (epochs : List (Nat × Nat)) : List Row3 :=
  ((List.range epochs.length).map (fun i =>
    (blockOf3 lines epochs i).map
      (lineRow3 dict nmax (epochs.getD i (0, 0)).1))).flatten

/-- The table `read_rinex2_obs` returns on `fileA` (used by witnesses). -/
def tblA : Table2 := (read_rinex2_obs fileA epochsA none).toOption.getD ⟨[], []⟩

/-- The table `read_rinex3_obs` returns on `fileB` (used by witnesses). -/
def tblB : Table3 := (read_rinex3_obs fileB epochsB none).toOption.getD ⟨[], []⟩

/-- The catalog entry registered under a system key (defaulting to an
empty entry; the readers only consult it for keys that are present). -/
def dictFind (dict : List SysEntry) (k : Line) : SysEntry :=
  (dict.find? (fun x => x.key == k)).getD ⟨[], 0, []⟩

/-- Observation record whose first declared field is unparseable text
("abc") and whose second field is 2.5. -/
def obsL2c : Line := (r"        abc                2.5  ").toList

/-- A converted fixed-width cell as pandas materialises it: missing
(NaN), a number (in a column converted to a numeric dtype), or the
field's stripped text (in a column that fell back to object dtype). -/
inductive Fld where
  | missing
  | num (q : Rat)
  | str (s : Line)
deriving DecidableEq

/-- The cell a per-field numeric conversion yields, as a `Fld`. -/
def fldOfOpt (o : Option Rat) : Fld :=
  match o with
  | some q => .num q
  | none => .missing

/-- Column `j` of a fixed-width read: the stripped field of every line. -/
def colRaw (w : List Nat) (j : Nat) (ls : List Line) : List Line :=
  ls.map (fun l => trim ((sliceWidths w l).getD j []))

/-- The pandas dtype inference for one column of one read: when every
non-blank field parses as a number the column becomes numeric (blank
fields are missing values); otherwise the column keeps object dtype and
every non-blank field stays as its stripped text, blanks still missing
(the empty string is a default NA value). -/
def convertCol (raw : List Line) : List Fld :=
  if raw.all (fun s => s.isEmpty || (parseDecimal s).isSome) then
    raw.map (fun s => fldOfOpt (parseDecimal s))
  else
    raw.map (fun s => if s = [] then .missing else .str s)

/-- The converted cell grid of one fixed-width read (`pd.read_fwf` with
widths `w` over lines `ls`): row `i`, column `j` holds line `i`'s field
`j` converted under column `j`'s inferred dtype. -/
def fwfGrid (w : List Nat) (ls : List Line) : List (List Fld) :=
  (List.range ls.length).map (fun i =>
    (List.range w.length).map (fun j =>
      (convertCol (colRaw w j ls)).getD i .missing))

/-! Helper lemmas. -/

theorem mapM_option_forall2 {α β : Type} {f : α → Option β} :
    ∀ {l : List α} {ys : List β}, l.mapM f = some ys →
      List.Forall₂ (fun a b => f a = some b) l ys := by
  intro l
  induction l with
  | nil =>
    intro ys h
    simp only [List.mapM_nil, pure, Option.some_inj] at h
    simp [← h]
  | cons a l ih =>
    intro ys h
    simp only [List.mapM_cons, bind, Option.bind_eq_some, pure,
      Option.some_inj] at h
    obtain ⟨b, hb, ys', hys', rfl⟩ := h
    exact List.Forall₂.cons hb (ih hys')

theorem forall2_mem_right {α β : Type} {R : α → β → Prop} :
    ∀ {l : List α} {ys : List β}, List.Forall₂ R l ys → ∀ {b}, b ∈ ys →
      ∃ a, a ∈ l ∧ R a b := by
  intro l ys h
  induction h with
  | nil => intro b hb; cases hb
  | cons hab _ ih =>
    intro b hb
    rcases List.mem_cons.mp hb with rfl | hb'
    · exact ⟨_, List.mem_cons_self _ _, hab⟩
    · obtain ⟨a, ha, hr⟩ := ih hb'
      exact ⟨a, List.mem_cons_of_mem _ ha, hr⟩

theorem forall2_map_eq {α β γ : Type} {R : α → β → Prop} {g : β → γ} {h : α → γ} :
    ∀ {l : List α} {ys : List β}, List.Forall₂ R l ys →
      (∀ a b, R a b → g b = h a) → ys.map g = l.map h := by
  intro l ys hf
  induction hf with
  | nil => intro _; rfl
  | cons hab _ ih =>
    intro hgh
    simp only [List.map_cons, hgh _ _ hab, ih hgh]

theorem lookup_enum_filter_lt {α β : Type} (q : α → Bool) (f : α → β) :
    ∀ (xs : List α) (s k : Nat), k < s →
      List.lookup k (((List.enumFrom s xs).filter (fun p => q p.2)).map
        (fun p => (p.1, f p.2))) = none := by
  intro xs
  induction xs with
  | nil => intro s k _; rfl
  | cons x xs ih =>
    intro s k hk
    have hne : (k == s) = false := by
      simp only [beq_eq_false_iff_ne]; omega
    by_cases hq : q x = true
    · simp only [List.enumFrom_cons, List.filter_cons, hq, if_true, List.map_cons,
        List.lookup_cons, hne]
      exact ih (s + 1) k (by omega)
    · simp only [List.enumFrom_cons, List.filter_cons, hq, if_false]
      exact ih (s + 1) k (by omega)

theorem lookup_enum_filter {α β : Type} (q : α → Bool) (f : α → β) :
    ∀ (xs : List α) (s k : Nat) (d0 : α), s ≤ k → k - s < xs.length →
      List.lookup k (((List.enumFrom s xs).filter (fun p => q p.2)).map
        (fun p => (p.1, f p.2))) =
        if q (xs.getD (k - s) d0) then some (f (xs.getD (k - s) d0)) else none := by
  intro xs
  induction xs with
  | nil => intro s k d0 _ h; simp at h
  | cons x xs ih =>
    intro s k d0 hsk hlt
    by_cases hks : k = s
    · subst hks
      have h0 : k - k = 0 := by omega
      rw [h0, List.getD_cons_zero]
      by_cases hq : q x = true
      · simp [List.enumFrom_cons, List.filter_cons, hq, List.lookup_cons]
      · simp only [List.enumFrom_cons, List.filter_cons, hq, if_false,
          Bool.false_eq_true]
        rw [lookup_enum_filter_lt q f xs (k + 1) k (by omega)]
    · have hlt' : k - (s + 1) < xs.length := by
        simp only [List.length_cons] at hlt; omega
      have hrw : (x :: xs).getD (k - s) d0 = xs.getD (k - (s + 1)) d0 := by
        have hh : k - s = (k - (s + 1)) + 1 := by omega
        rw [hh, List.getD_cons_succ]
      have hne : (k == s) = false := by
        simp only [beq_eq_false_iff_ne]; omega
      rw [hrw]
      by_cases hq : q x = true
      · simp only [List.enumFrom_cons, List.filter_cons, hq, if_true, List.map_cons,
          List.lookup_cons, hne]
        exact ih (s + 1) k d0 (by omega) hlt'
      · simp only [List.enumFrom_cons, List.filter_cons, hq, if_false,
          Bool.false_eq_true]
        exact ih (s + 1) k d0 (by omega) hlt'

theorem lookup_groupedOf (dict : List SysEntry)
    (parsed : List (Line × List (Option Rat))) (k : Nat)
    (d0 : Line × List (Option Rat)) (hk : k < parsed.length) :
    List.lookup k (groupedOf dict parsed) =
      (dict.find? (fun e => (parsed.getD k d0).1.take 1 == e.key)).map
        (fun e => mkRow3 e (parsed.getD k d0)) := by
  induction dict with
  | nil => rfl
  | cons e dict ih =>
    have hpart := lookup_enum_filter (fun a => a.1.take 1 == e.key)
      (fun a => mkRow3 e a) parsed 0 k d0 (Nat.zero_le k) (by simpa using hk)
    simp only [Nat.sub_zero] at hpart
    simp only [groupedOf, List.flatMap_cons, List.lookup_append] at *
    rw [show List.enum parsed = List.enumFrom 0 parsed from rfl] at *
    rw [List.find?_cons]
    by_cases hqe : ((parsed.getD k d0).1.take 1 == e.key) = true
    · rw [hpart, if_pos hqe, hqe]
      rfl
    · rw [hpart, if_neg hqe]
      have hqe' : (List.take 1 (parsed.getD k d0).1 == e.key) = false := by
        cases hcase : (List.take 1 (parsed.getD k d0).1 == e.key)
        · rfl
        · exact absurd hcase hqe
      rw [hqe']
      simpa using ih

theorem groupedOf_mem {dict : List SysEntry}
    {parsed : List (Line × List (Option Rat))} {x : Nat × Row3}
    (hx : x ∈ groupedOf dict parsed) :
    ∃ e ∈ dict, ∃ p ∈ parsed.enum,
      (p.2.1.take 1 == e.key) = true ∧ x = (p.1, mkRow3 e p.2) := by
  simp only [groupedOf, List.mem_flatMap, List.mem_map, List.mem_filter] at hx
  obtain ⟨e, he, p, ⟨hp, hq⟩, hx⟩ := hx
  exact ⟨e, he, p, hp, hq, hx.symm⟩

theorem groupedOf_keys_lt {dict : List SysEntry}
    {parsed : List (Line × List (Option Rat))} {x : Nat × Row3}
    (hx : x ∈ groupedOf dict parsed) : x.1 < parsed.length := by
  obtain ⟨e, _, p, hp, _, hx⟩ := groupedOf_mem hx
  subst hx
  have := List.mem_enum_iff_getElem?.mp hp
  obtain ⟨hlt, -⟩ := List.getElem?_eq_some_iff.mp this
  simpa using hlt

theorem groupedOf_keys_nodup {dict : List SysEntry}
    {parsed : List (Line × List (Option Rat))}
    (hnd : (dict.map (fun e => e.key)).Nodup) :
    ((groupedOf dict parsed).map Prod.fst).Nodup := by
  induction dict with
  | nil => simp [groupedOf]
  | cons e dict ih =>
    simp only [List.map_cons, List.nodup_cons] at hnd
    obtain ⟨hkey, hnd'⟩ := hnd
    have ihp := ih hnd'
    simp only [groupedOf, List.flatMap_cons, List.map_append]
    rw [List.nodup_append]
    refine ⟨?_, ihp, ?_⟩
    · have h1 : (((parsed.enum.filter (fun p => p.2.1.take 1 == e.key)).map
          (fun p => (p.1, mkRow3 e p.2))).map Prod.fst) =
          (parsed.enum.filter (fun p => p.2.1.take 1 == e.key)).map Prod.fst := by
        simp [List.map_map, Function.comp]
      rw [h1]
      have hsub := (List.filter_sublist
        (p := fun p => p.2.1.take 1 == e.key) parsed.enum).map Prod.fst
      rw [List.enum_map_fst] at hsub
      exact List.Nodup.sublist hsub (List.nodup_range _)
    · intro a ha hb
      simp only [List.mem_map] at ha
      obtain ⟨⟨i, row⟩, hmem, hi⟩ := ha
      simp only [List.mem_map, List.mem_filter] at hmem
      obtain ⟨p, ⟨hp, hqp⟩, hpair⟩ := hmem
      obtain ⟨x, hx, hxa⟩ := List.mem_map.mp hb
      obtain ⟨e', he', p', hp', hqp', hx'⟩ := groupedOf_mem hx
      have hii : p.1 = p'.1 := by
        have h1 : (i, row).1 = a := hi
        have h2 : p.1 = i := congrArg Prod.fst hpair
        have h3 : x.1 = a := hxa
        have h4 : x.1 = p'.1 := by rw [hx']
        simp only at h1 h2
        omega
      have hpp : p = p' := by
        have hg := List.mem_enum_iff_getElem?.mp hp
        have hg' := List.mem_enum_iff_getElem?.mp hp'
        rw [hii] at hg
        rw [hg] at hg'
        exact Prod.ext hii (Option.some_inj.mp hg')
      have hkeys : e.key = e'.key := by
        have hq1 := eq_of_beq hqp
        have hq2 := eq_of_beq hqp'
        rw [hpp] at hq1
        rw [← hq1, hq2]
      exact hkey (hkeys ▸ List.mem_map.mpr ⟨e', he', rfl⟩)

theorem groupedOf_keys_mem {dict : List SysEntry}
    {parsed : List (Line × List (Option Rat))} (k : Nat)
    (d0 : Line × List (Option Rat)) (hk : k < parsed.length)
    (hfind : (dict.find? (fun e => (parsed.getD k d0).1.take 1 == e.key)).isSome = true) :
    k ∈ (groupedOf dict parsed).map Prod.fst := by
  obtain ⟨e, he⟩ := Option.isSome_iff_exists.mp hfind
  have hmem : e ∈ dict := List.mem_of_find?_eq_some he
  have hpred := List.find?_some he
  have henum : (k, parsed.getD k d0) ∈ parsed.enum := by
    rw [List.mem_enum_iff_getElem?]
    simp [List.getElem?_eq_getElem hk, List.getD_eq_getElem _ _ hk]
  refine List.mem_map.mpr ⟨(k, mkRow3 e (parsed.getD k d0)), ?_, rfl⟩
  simp only [groupedOf, List.mem_flatMap]
  exact ⟨e, hmem, List.mem_map.mpr ⟨(k, parsed.getD k d0),
    List.mem_filter.mpr ⟨henum, hpred⟩, rfl⟩⟩

theorem groupedOf_keys_perm {dict : List SysEntry}
    {parsed : List (Line × List (Option Rat))}
    (d0 : Line × List (Option Rat))
    (hnd : (dict.map (fun e => e.key)).Nodup)
    (hall : ∀ k, k < parsed.length →
      (dict.find? (fun e => (parsed.getD k d0).1.take 1 == e.key)).isSome = true) :
    ((groupedOf dict parsed).map Prod.fst).Perm (List.range parsed.length) := by
  apply List.perm_of_nodup_nodup_toFinset_eq (groupedOf_keys_nodup hnd)
    (List.nodup_range _)
  ext a
  simp only [List.mem_toFinset, List.mem_range]
  constructor
  · intro ha
    obtain ⟨x, hx, rfl⟩ := List.mem_map.mp ha
    exact groupedOf_keys_lt hx
  · intro ha
    exact groupedOf_keys_mem a d0 ha (hall a ha)

theorem dedupFirstGo_all_seen : ∀ (l seen : List Nat), (∀ x ∈ l, x ∈ seen) →
    dedupFirstGo l seen = [] := by
  intro l
  induction l with
  | nil => intro _ _; rfl
  | cons x xs ih =>
    intro seen h
    simp only [dedupFirstGo, if_pos (h x (List.mem_cons_self _ _))]
    exact ih seen (fun y hy => h y (List.mem_cons_of_mem _ hy))

theorem dedupFirstGo_append : ∀ (l1 l2 seen : List Nat), l1.Nodup →
    (∀ x ∈ l1, x ∉ seen) →
    ∃ seen2, dedupFirstGo (l1 ++ l2) seen = l1 ++ dedupFirstGo l2 seen2 ∧
      ∀ x, x ∈ seen2 ↔ x ∈ l1 ∨ x ∈ seen := by
  intro l1
  induction l1 with
  | nil => intro l2 seen _ _; exact ⟨seen, rfl, by simp⟩
  | cons a l1 ih =>
    intro l2 seen hnd hout
    simp only [List.nodup_cons] at hnd
    have ha : a ∉ seen := hout a (List.mem_cons_self _ _)
    obtain ⟨seen2, heq, hiff⟩ := ih l2 (a :: seen) hnd.2
      (fun x hx => by
        simp only [List.mem_cons, not_or]
        exact ⟨fun hxa => hnd.1 (hxa ▸ hx), hout x (List.mem_cons_of_mem _ hx)⟩)
    refine ⟨seen2, ?_, fun x => ?_⟩
    · simp only [List.cons_append, dedupFirstGo, if_neg ha]
      rw [List.append_eq, heq]
    · rw [hiff x]
      simp only [List.mem_cons]
      tauto

theorem dedupFirst_range_absorb (n : Nat) (keys : List Nat)
    (hsub : ∀ x ∈ keys, x < n) :
    dedupFirst (List.range n ++ keys) = List.range n := by
  obtain ⟨seen2, heq, hiff⟩ := dedupFirstGo_append (List.range n) keys []
    (List.nodup_range n) (by simp)
  rw [dedupFirst, heq, dedupFirstGo_all_seen keys seen2 ?_, List.append_nil]
  intro x hx
  rw [hiff x]
  exact Or.inl (List.mem_range.mpr (hsub x hx))

theorem map_getD_range {α β : Type} (f : α → β) (l : List α) (d : α) :
    (List.range l.length).map (fun k => f (l.getD k d)) = l.map f := by
  apply List.ext_getElem
  · simp
  · intro n h1 h2
    simp only [List.getElem_map, List.getElem_range]
    rw [List.getD_eq_getElem _ _ (by simpa using h2)]

theorem colRaw_length (w : List Nat) (j : Nat) (ls : List Line) :
    (colRaw w j ls).length = ls.length := by
  simp [colRaw]

theorem colRaw_getD (w : List Nat) (j : Nat) (ls : List Line) (i : Nat)
    (hi : i < ls.length) :
    (colRaw w j ls).getD i [] = trim ((sliceWidths w (ls.getD i [])).getD j []) := by
  rw [List.getD_eq_getElem _ _ (by simpa [colRaw] using hi),
    List.getD_eq_getElem _ _ hi]
  simp [colRaw]

theorem fwfGrid_row (w : List Nat) (ls : List Line) (i : Nat) (hi : i < ls.length) :
    (fwfGrid w ls).getD i [] = (List.range w.length).map (fun j =>
      (convertCol (colRaw w j ls)).getD i .missing) := by
  rw [List.getD_eq_getElem _ _ (by simpa [fwfGrid] using hi)]
  simp [fwfGrid]

theorem fwfGrid_cell (w : List Nat) (ls : List Line) (i j : Nat)
    (hi : i < ls.length) (hj : j < w.length) :
    ((fwfGrid w ls).getD i []).getD j .missing =
      (convertCol (colRaw w j ls)).getD i .missing := by
  rw [fwfGrid_row w ls i hi]
  rw [List.getD_eq_getElem _ _ (by simpa using hj)]
  simp

theorem convertCol_getD_num (raw : List Line) (i : Nat) (hi : i < raw.length)
    (hall : raw.all (fun s => s.isEmpty || (parseDecimal s).isSome) = true) :
    (convertCol raw).getD i .missing = fldOfOpt (parseDecimal (raw.getD i [])) := by
  unfold convertCol
  rw [if_pos hall]
  rw [List.getD_eq_getElem _ _ (by simpa using hi), List.getD_eq_getElem _ _ hi]
  simp

theorem convertCol_getD_obj (raw : List Line) (i : Nat) (hi : i < raw.length)
    (hfalse : raw.all (fun s => s.isEmpty || (parseDecimal s).isSome) = false) :
    (convertCol raw).getD i .missing =
      if raw.getD i [] = [] then .missing else .str (raw.getD i []) := by
  unfold convertCol
  rw [if_neg (by rw [hfalse]; exact Bool.false_ne_true)]
  rw [List.getD_eq_getElem _ _ (by simpa using hi), List.getD_eq_getElem _ _ hi]
  simp

theorem lineLe_total : ∀ (a b : Line), lineLe a b = true ∨ lineLe b a = true := by
  intro a
  induction a with
  | nil => intro b; left; cases b <;> rfl
  | cons x xs ih =>
    intro b
    cases b with
    | nil => right; rfl
    | cons y ys =>
      simp only [lineLe]
      rcases Nat.lt_trichotomy x.toNat y.toNat with h | h | h
      · left; rw [if_pos h]
      · rcases ih ys with h1 | h1
        · left
          rw [if_neg (by omega), if_neg (by omega)]
          exact h1
        · right
          rw [if_neg (by omega), if_neg (by omega)]
          exact h1
      · right; rw [if_pos h]

theorem lineLe_trans : ∀ (a b c : Line),
    lineLe a b = true → lineLe b c = true → lineLe a c = true := by
  intro a
  induction a with
  | nil => intro b c _ _; cases c <;> rfl
  | cons x xs ih =>
    intro b c hab hbc
    cases b with
    | nil => simp [lineLe] at hab
    | cons y ys =>
      cases c with
      | nil => simp [lineLe] at hbc
      | cons z zs =>
        simp only [lineLe] at hab hbc ⊢
        have hxy : x.toNat ≤ y.toNat := by
          by_contra hgt
          push_neg at hgt
          rw [if_neg (by omega), if_pos (by omega)] at hab
          exact absurd hab (by simp)
        have hyz : y.toNat ≤ z.toNat := by
          by_contra hgt
          push_neg at hgt
          rw [if_neg (by omega), if_pos (by omega)] at hbc
          exact absurd hbc (by simp)
        by_cases hxz : x.toNat < z.toNat
        · rw [if_pos hxz]
        · rw [if_neg hxz, if_neg (by omega)]
          rw [if_neg (by omega), if_neg (by omega)] at hab
          rw [if_neg (by omega), if_neg (by omega)] at hbc
          exact ih ys zs hab hbc

theorem rowLe2_total : ∀ (a b : Row2), rowLe2 a b = true ∨ rowLe2 b a = true := by
  intro a b
  unfold rowLe2
  rcases Nat.lt_trichotomy a.epoch b.epoch with h | h | h
  · left; rw [if_pos h]
  · rcases lineLe_total a.prn b.prn with h1 | h1
    · left
      rw [if_neg (by omega), if_neg (by omega)]
      exact h1
    · right
      rw [if_neg (by omega), if_neg (by omega)]
      exact h1
  · right; rw [if_pos h]

theorem rowLe2_trans : ∀ (a b c : Row2),
    rowLe2 a b = true → rowLe2 b c = true → rowLe2 a c = true := by
  intro a b c hab hbc
  unfold rowLe2 at hab hbc ⊢
  have hxy : a.epoch ≤ b.epoch := by
    by_contra hgt
    push_neg at hgt
    rw [if_neg (by omega), if_pos (by omega)] at hab
    exact absurd hab (by simp)
  have hyz : b.epoch ≤ c.epoch := by
    by_contra hgt
    push_neg at hgt
    rw [if_neg (by omega), if_pos (by omega)] at hbc
    exact absurd hbc (by simp)
  by_cases hxz : a.epoch < c.epoch
  · rw [if_pos hxz]
  · rw [if_neg hxz, if_neg (by omega)]
    rw [if_neg (by omega), if_neg (by omega)] at hab
    rw [if_neg (by omega), if_neg (by omega)] at hbc
    exact lineLe_trans _ _ _ hab hbc

theorem mem_of_lookup_eq_some {β : Type} {l : List (Nat × β)} {k : Nat} {v : β}
    (h : List.lookup k l = some v) : (k, v) ∈ l := by
  induction l with
  | nil => cases h
  | cons p l ih =>
    obtain ⟨k', v'⟩ := p
    rw [List.lookup_cons] at h
    by_cases hk : (k == k') = true
    · rw [hk] at h
      have hv : v' = v := Option.some_inj.mp h
      have hkk : k = k' := eq_of_beq hk
      subst hv; subst hkk
      exact List.mem_cons_self _ _
    · have hk' : (k == k') = false := by
        cases hc : (k == k')
        · rfl
        · exact absurd hc hk
      rw [hk'] at h
      exact List.mem_cons_of_mem _ (ih h)

theorem sliceWidths_length : ∀ (ws : List Nat) (l : Line),
    (sliceWidths ws l).length = ws.length := by
  intro ws
  induction ws with
  | nil => intro l; rfl
  | cons w ws ih => intro l; simp [sliceWidths, ih]

theorem widthsRep_length (n : Nat) : (widthsRep n).length = 3 * n := by
  induction n with
  | zero => rfl
  | succ m ih =>
    simp only [widthsRep, List.replicate_succ, List.flatten_cons,
      List.length_append, List.length_cons, List.length_nil]
    simp only [widthsRep] at ih
    omega

theorem find?_key_of_mem {dict : List SysEntry} {e : SysEntry}
    (hnd : (dict.map (fun x => x.key)).Nodup) (hmem : e ∈ dict) :
    dict.find? (fun x => x.key == e.key) = some e := by
  induction dict with
  | nil => cases hmem
  | cons d dict ih =>
    simp only [List.map_cons, List.nodup_cons] at hnd
    rcases List.mem_cons.mp hmem with rfl | hmem'
    · rw [List.find?_cons, beq_self_eq_true]
    · have hne : (d.key == e.key) = false := by
        cases hc : (d.key == e.key)
        · rfl
        · exact absurd
            (List.mem_map.mpr ⟨e, hmem', (eq_of_beq hc).symm⟩) hnd.1
      rw [List.find?_cons, hne]
      exact ih hnd.2 hmem'

theorem insertSys_keys_nodup {d : List SysEntry} {e : SysEntry}
    (h : (d.map (fun x => x.key)).Nodup) :
    ((insertSys d e).map (fun x => x.key)).Nodup := by
  unfold insertSys
  by_cases hany : d.any (fun x => x.key == e.key) = true
  · rw [if_pos hany]
    have heq : (d.map (fun x => if x.key == e.key then e else x)).map
        (fun x => x.key) = d.map (fun x => x.key) := by
      rw [List.map_map]
      apply List.map_congr_left
      intro x _
      by_cases hxe : (x.key == e.key) = true
      · simp only [Function.comp_apply, hxe, if_true]
        exact (eq_of_beq hxe).symm
      · simp only [Function.comp_apply, hxe, if_false]
        simp only [Bool.false_eq_true] at hxe
        simp [hxe]
    rw [heq]
    exact h
  · rw [if_neg hany]
    rw [List.map_append, List.nodup_append]
    refine ⟨h, by simp, ?_⟩
    intro a ha hb
    simp only [List.map_cons, List.map_nil, List.mem_singleton] at hb
    subst hb
    obtain ⟨x, hx, hxk⟩ := List.mem_map.mp ha
    simp only [List.any_eq_true] at hany
    exact hany ⟨x, hx, by rw [hxk]; exact beq_self_eq_true _⟩

theorem buildDictGo_nodup : ∀ (ls : List Line) (d d' : List SysEntry),
    buildDictGo ls d = .ok d' → (d.map (fun x => x.key)).Nodup →
    (d'.map (fun x => x.key)).Nodup := by
  intro ls
  induction ls with
  | nil =>
    intro d d' h hd
    cases h
    exact hd
  | cons l ls ih =>
    intro d d' h hd
    unfold buildDictGo at h
    split at h
    next k c codes _ =>
      split at h
      next n _ => exact ih _ _ h (insertSys_keys_nodup hd)
      next => exact absurd h (by simp)
    next => exact absurd h (by simp)

theorem buildDict_nodup {ls : List Line} {d : List SysEntry}
    (h : buildDict ls = .ok d) : (d.map (fun x => x.key)).Nodup :=
  buildDictGo_nodup ls [] d h List.nodup_nil

theorem read3_none_eq (lines : List Line) (epochs : List (Nat × Nat)) :
    read_rinex3_obs lines epochs none = rawTable3 lines epochs := by
  unfold read_rinex3_obs
  cases h : rawTable3 lines epochs <;> simp [applyIdx3]

theorem rawTable3_ok {lines : List Line} {epochs : List (Nat × Nat)} {t : Table3}
    (h : rawTable3 lines epochs = .ok t) :
    ∃ iEnd nmax, findEOH lines = some iEnd ∧
      buildDict (sysLines3 lines iEnd) = .ok t.dict ∧
      (t.dict.map (fun e => e.cnt)).max? = some nmax ∧
      epochs.isEmpty = false ∧
      (t.dict.any (fun e => nmax < e.codes.length)) = false ∧
      t.rows = ((List.range epochs.length).map
        (fun i => epochRows3 t.dict nmax (epochs.getD i (0, 0)).1
          (blockOf3 lines epochs i))).flatten := by
  unfold rawTable3 at h
  split at h
  · exact absurd h (by simp)
  next iEnd hE =>
    split at h
    next err hD => exact absurd h (by simp)
    next dict hD =>
      split at h
      · exact absurd h (by simp)
      next nmax hM =>
        split at h
        · exact absurd h (by simp)
        next hne =>
          split at h
          · exact absurd h (by simp)
          next hany =>
            cases h
            have hne' : epochs.isEmpty = false := by
              cases hb : epochs.isEmpty
              · rfl
              · exact absurd hb hne
            have hany' : (dict.any (fun e => nmax < e.codes.length)) = false := by
              cases hb : dict.any (fun e => nmax < e.codes.length)
              · rfl
              · exact absurd hb hany
            exact ⟨iEnd, nmax, hE, hD, hM, hne', hany', rfl⟩

theorem epochRows3_noDrop (dict : List SysEntry) (nmax ep : Nat) (block : List Line)
    (hnd : (dict.map (fun e => e.key)).Nodup)
    (hall : ∀ l ∈ block, (dict.find? (fun e => sysTok l == e.key)).isSome = true) :
    epochRows3 dict nmax ep block = block.map (lineRow3 dict nmax ep) := by
  have hplen : (block.map (parseLine3 nmax)).length = block.length := by simp
  have hget : ∀ k, k < block.length →
      (block.map (parseLine3 nmax)).getD k (([], [])) =
        parseLine3 nmax (block.getD k []) := by
    intro k hk
    rw [List.getD_eq_getElem _ _ (by simpa using hk),
      List.getD_eq_getElem _ _ hk, List.getElem_map]
  have hall' : ∀ k, k < (block.map (parseLine3 nmax)).length →
      (dict.find? (fun e =>
        ((block.map (parseLine3 nmax)).getD k (([], []))).1.take 1 == e.key)).isSome
        = true := by
    intro k hk
    rw [hplen] at hk
    rw [hget k hk]
    exact hall (block.getD k []) (by
      rw [List.getD_eq_getElem _ _ hk]
      exact List.getElem_mem _)
  have hperm := groupedOf_keys_perm (([], [])) hnd hall'
  have hlen : (groupedOf dict (block.map (parseLine3 nmax))).length = block.length := by
    have h1 := hperm.length_eq
    simpa using h1
  have hkeys_lt : ∀ x ∈ (groupedOf dict (block.map (parseLine3 nmax))).map Prod.fst,
      x < block.length := by
    intro x hx
    obtain ⟨y, hy, rfl⟩ := List.mem_map.mp hx
    have := groupedOf_keys_lt hy
    simpa using this
  show (dedupFirst (List.range (groupedOf dict (block.map (parseLine3 nmax))).length ++
      (groupedOf dict (block.map (parseLine3 nmax))).map Prod.fst)).map _ = _
  rw [hlen, dedupFirst_range_absorb block.length _ hkeys_lt]
  apply List.ext_getElem
  · simp
  · intro n h1 h2
    have hnb : n < block.length := by simpa using h2
    simp only [List.getElem_map, List.getElem_range]
    rw [lookup_groupedOf dict _ n (([], [])) (by simpa using hnb)]
    rw [hget n hnb]
    obtain ⟨e, hfind⟩ := Option.isSome_iff_exists.mp
      (hall (block.getD n []) (by
        rw [List.getD_eq_getElem _ _ hnb]
        exact List.getElem_mem _))
    have hfind' : dict.find?
        (fun e => (parseLine3 nmax (block.getD n [])).1.take 1 == e.key) = some e :=
      hfind
    rw [hfind']
    simp only [Option.map_some']
    rw [if_pos hnb]
    have hrow : block.getD n [] = block[n] := List.getD_eq_getElem _ _ hnb
    rw [hrow] at hfind'
    simp only [lineRow3, mkRow3]
    rw [show dict.find? (fun e => sysTok block[n] == e.key) = some e from hfind']
    rw [hrow]

theorem read2_none_eq (lines : List Line) (epochs : List (Nat × Nat)) :
    read_rinex2_obs lines epochs none = rawTable2 lines epochs := by
  unfold read_rinex2_obs
  cases h : rawTable2 lines epochs <;> simp [applyIdx2]

theorem rawTable2_ok {lines : List Line} {epochs : List (Nat × Nat)} {t : Table2}
    (h : rawTable2 lines epochs = .ok t) :
    ∃ rowss, t.names = sortLex (tripleNames (codes2 lines)) ∧
      t.rows = rowss.flatten.insertionSort (fun a b => rowLe2 a b = true) ∧
      List.Forall₂
        (fun i rs => epochRows2 (codes2 lines).length (epochs.getD i (0, 0)).1
          (blockOf2 lines epochs i) = some rs)
        (List.range epochs.length) rowss := by
  unfold rawTable2 at h
  split at h
  · exact absurd h (by simp)
  next iEnd hE =>
    split at h
    · exact absurd h (by simp)
    next t0 codes hT =>
      split at h
      · exact absurd h (by simp)
      next nobs hP =>
        split at h
        · exact absurd h (by simp)
        next hcl =>
          push_neg at hcl
          split at h
          · exact absurd h (by simp)
          next hne =>
            split at h
            · exact absurd h (by simp)
            next rowss hM =>
              have hcodes : codes2 lines = codes := by
                simp [codes2, hE, hT]
              have ht : t = ⟨sortLex (tripleNames codes),
                  rowss.flatten.insertionSort (fun a b => rowLe2 a b = true)⟩ := by
                cases h; rfl
              subst ht
              refine ⟨rowss, by rw [hcodes], rfl, ?_⟩
              rw [hcodes, hcl]
              exact mapM_option_forall2 hM

theorem epochRows2_some {nobs ep : Nat} {block : List Line} {rs : List Row2}
    (h : epochRows2 nobs ep block = some rs) :
    ∃ ep0 nsat lc sats ilend,
      satsFind block = some (ep0, nsat, lc, sats, ilend) ∧
      rs = (List.range nsat).map
        (mkRow2 nobs ep sats (block.drop (ilend + 1)) ((nobs + 4) / 5)) := by
  unfold epochRows2 at h
  cases hs : satsFind block with
  | none => rw [hs] at h; exact absurd h (by simp)
  | some q =>
    rw [hs] at h
    obtain ⟨ep0, nsat, lc, sats, ilend⟩ := q
    simp only [Option.some_inj] at h
    exact ⟨ep0, nsat, lc, sats, ilend, rfl, h.symm⟩

/-! Theorems. -/

/-- C3: the continuation-line merge of `read_rinex3_obs` mutates the list
it iterates over: with two consecutive continuation lines the first is
concatenated onto the system line, but the element that slides into its
slot -- the second continuation line -- is skipped, stays unmerged, and
is then handed to the dictionary builder as a new system line, whose
second token (an observable code) fails the integer parse and aborts the
reader.  On `fileC` (one system spanning three declaration lines) the
merged line list still contains the second continuation line, and the
whole read fails instead of cataloguing all six observables. -/
theorem c3_continuation_merge :
    sysLines3 fileC 3 = [hdrSysX0.take 60 ++ hdrSysX1.take 60, hdrSysX2.take 60] ∧
    err3Of (read_rinex3_obs fileC epochsC none) = some .badSysHeader := by
  constructor
  · decide
  · decide

/-- C1 counterexample: `fileA` declares its observables in the order
L1, C1.  In the returned table the row of G02 (its record `obsL2a`
carries 1.5 in the L1 field and 2.5 in the C1 field) holds 1.5 -- the L1
field -- under the column named C1, and 2.5 under the column named L1:
the k-th parsed field group is returned under the k-th *sorted* name, not
under the k-th declared observable's name, so the claimed cell value
(the one parsed from the C1 field position, 2.5) is not what the C1
column holds. -/
theorem c1_counterexample :
    (rows2Of (read_rinex2_obs fileA epochsA none)).length = 2 ∧
    ((rows2Of (read_rinex2_obs fileA epochsA none)).getD 1 ⟨0, none, [], []⟩).prn =
      (r"G02").toList ∧
    mergedRecord ((blockOf2 fileA epochsA 0).drop 1) 1 0 = obsL2a ∧
    cellsOfMerged 2 obsL2a =
      [some (mkRat 3 2), none, none, some (mkRat 5 2), none, none] ∧
    cellVal2 (names2Of (read_rinex2_obs fileA epochsA none))
      ((rows2Of (read_rinex2_obs fileA epochsA none)).getD 1 ⟨0, none, [], []⟩)
      ((r"C1").toList) = some (mkRat 3 2) ∧
    cellVal2 (names2Of (read_rinex2_obs fileA epochsA none))
      ((rows2Of (read_rinex2_obs fileA epochsA none)).getD 1 ⟨0, none, [], []⟩)
      ((r"L1").toList) = some (mkRat 5 2) ∧
    ¬ (mkRat 3 2 = mkRat 5 2) := by
  refine ⟨by decide, by decide, by decide, by decide, by decide, by decide, by decide⟩

/-- C1 amended: in every RINEX 2 output table the columns are the
declared observables' (value, LLI, SSI) names sorted lexicographically,
and the k-th (14,1,1)-width group of a row's concatenated record string
(declaration order) is returned at cell position k, i.e. under the k-th
column of that *sorted* name list -- which is the k-th declared
observable's column only when the declaration order is already sorted:
every row's cell list is exactly the declaration-order fixed-width parse
of its own merged record. -/
theorem c1_amended (lines : List Line) (epochs : List (Nat × Nat)) (t : Table2)
    (h : read_rinex2_obs lines epochs none = .ok t) :
    t.names = sortLex (tripleNames (codes2 lines)) ∧
    ∀ r ∈ t.rows, ∃ i n ep0 nsat lc sats ilend,
      i < epochs.length ∧
      satsFind (blockOf2 lines epochs i) = some (ep0, nsat, lc, sats, ilend) ∧
      n < nsat ∧
      r.epoch = (epochs.getD i (0, 0)).1 ∧
      r.prn = sats.getD n [] ∧
      r.cells = cellsOfMerged (codes2 lines).length
        (mergedRecord ((blockOf2 lines epochs i).drop (ilend + 1))
          (((codes2 lines).length + 4) / 5) n) := by
  rw [read2_none_eq] at h
  obtain ⟨rowss, hnm, hr, hf⟩ := rawTable2_ok h
  refine ⟨hnm, ?_⟩
  intro r hmem
  rw [hr] at hmem
  have hmem2 : r ∈ rowss.flatten := (List.perm_insertionSort _ _).mem_iff.mp hmem
  obtain ⟨rs, hrs, hrrs⟩ := List.mem_flatten.mp hmem2
  obtain ⟨i, hi, hfi⟩ := forall2_mem_right hf hrs
  obtain ⟨ep0, nsat, lc, sats, ilend, hsf, hrs_eq⟩ := epochRows2_some hfi
  subst hrs_eq
  obtain ⟨n, hn_r, rfl⟩ := List.mem_map.mp hrrs
  exact ⟨i, n, ep0, nsat, lc, sats, ilend, List.mem_range.mp hi, hsf,
    List.mem_range.mp hn_r, rfl, rfl, rfl⟩

/-- Witness for the amended C1: the concrete file `fileA` is accepted and
its table has the sorted column-name list. -/
theorem c1_amended_witness :
    read_rinex2_obs fileA epochsA none = .ok tblA ∧
    tblA.names = sortLex (tripleNames (codes2 fileA)) := by
  have h : read_rinex2_obs fileA epochsA none = .ok tblA := by rfl
  exact ⟨h, (c1_amended fileA epochsA tblA h).1⟩

/-- C6: for every input file containing no line with the literal marker
"END OF HEADER", both `read_rinex2_obs` and `read_rinex3_obs` fail with
the fatal malformed-header error instead of returning a table. -/
theorem c6_missing_terminator (lines : List Line) (epochs : List (Nat × Nat))
    (setIdx : Option (List ColSel))
    (h : ∀ l ∈ lines, containsSub eohMark l = false) :
    read_rinex2_obs lines epochs setIdx = .error .malformedHeader ∧
    read_rinex3_obs lines epochs setIdx = .error .malformedHeader := by
  have hf : findEOH lines = none := List.findIdx?_eq_none_iff.mpr h
  constructor <;>
    simp [read_rinex2_obs, read_rinex3_obs, rawTable2, rawTable3, hf]

/-- Witness for C6: `fileD` has no header terminator and both readers
reject it. -/
theorem c6_missing_terminator_witness :
    (∀ l ∈ fileD, containsSub eohMark l = false) ∧
    read_rinex2_obs fileD epochsD none = .error .malformedHeader ∧
    read_rinex3_obs fileD epochsD none = .error .malformedHeader :=
  ⟨by decide, c6_missing_terminator fileD epochsD none (by decide)⟩

/-- C9: on an epoch block whose EPOCH/SAT line declares 13 satellites,
`_sats_find` reads ceil(13/12) = 2 satellite-holding lines (the epoch
line and one continuation line), splits the concatenation of the trimmed
column-32-onward text of those two lines into exactly 13 three-character
PRN tokens (distinct whenever the PRN fields of the input are distinct),
and reports index 1 (the continuation line) as the last satellite-list
line. -/
theorem c9_sats_find_13 (l0 l1 : Line) (rest : List Line)
    (h0 : epochReMatch l0 = true)
    (hn : parseNatTrim ((l0.drop 30).take 2) = some 13)
    (h1 : epochReMatch l1 = false)
    (hl0 : (trim (l0.drop 32)).length = 36)
    (hl1 : (trim (l1.drop 32)).length = 3)
    (hnd : (chunk3 (trim (l0.drop 32) ++ trim (l1.drop 32)) 13).Nodup) :
    satsFind (l0 :: l1 :: rest) =
      some (l0, 13, trim (l0.drop 32) ++ trim (l1.drop 32),
        chunk3 (trim (l0.drop 32) ++ trim (l1.drop 32)) 13, 1) ∧
    (chunk3 (trim (l0.drop 32) ++ trim (l1.drop 32)) 13).length = 13 ∧
    (∀ s ∈ chunk3 (trim (l0.drop 32) ++ trim (l1.drop 32)) 13, s.length = 3) ∧
    (chunk3 (trim (l0.drop 32) ++ trim (l1.drop 32)) 13).Nodup := by
  refine ⟨?_, ?_, ?_, hnd⟩
  · simp only [satsFind, satsFindGo, h0, hn, if_true, List.nil_append]
    norm_num
    simp only [satsFindGo, h1, if_false]
    norm_num
  · simp [chunk3]
  · intro s hs
    simp only [chunk3, List.mem_map, List.mem_range] at hs
    obtain ⟨k, hk, rfl⟩ := hs
    have hlen : (trim (l0.drop 32) ++ trim (l1.drop 32)).length = 39 := by
      simp [hl0, hl1]
    simp only [List.length_take, List.length_drop, hlen]
    omega

/-- C2: for every accepted RINEX observation file, the number of rows of
the returned table equals the sum over all epochs of the number of
satellites recorded at that epoch -- the EPOCH/SAT satellite count for
version 2, the number of body lines for version 3/4 (one line per
satellite; for version 3/4 under the format-validity hypothesis that every
body line's system is declared in the header, since pandas index
alignment materialises extra all-NaN rows for dropped lines otherwise). -/
theorem c2_row_count (lines2 : List Line) (epochs2 : List (Nat × Nat)) (t2 : Table2)
    (lines3 : List Line) (epochs3 : List (Nat × Nat)) (t3 : Table3)
    (h2 : read_rinex2_obs lines2 epochs2 none = .ok t2)
    (h3 : read_rinex3_obs lines3 epochs3 none = .ok t3)
    (hall : ∀ i, i < epochs3.length → ∀ l ∈ blockOf3 lines3 epochs3 i,
      (t3.dict.find? (fun e => sysTok l == e.key)).isSome = true) :
    t2.rows.length = ((List.range epochs2.length).map (satCount2 lines2 epochs2)).sum ∧
    t3.rows.length = ((List.range epochs3.length).map (satCount3 lines3 epochs3)).sum := by
  constructor
  · rw [read2_none_eq] at h2
    obtain ⟨rowss, -, hr, hf⟩ := rawTable2_ok h2
    rw [hr, (List.perm_insertionSort _ _).length_eq, List.length_flatten]
    congr 1
    refine forall2_map_eq hf ?_
    intro i rs hi
    obtain ⟨ep0, nsat, lc, sats, ilend, hsf, rfl⟩ := epochRows2_some hi
    simp [satCount2, hsf]
  · rw [read3_none_eq] at h3
    obtain ⟨iEnd, nmax, hE, hD, hM, hne, hany, hrows⟩ := rawTable3_ok h3
    have hnd := buildDict_nodup hD
    rw [hrows, List.length_flatten, List.map_map]
    congr 1
    apply List.map_congr_left
    intro i hi
    rw [Function.comp_apply,
      epochRows3_noDrop _ _ _ _ hnd (hall i (List.mem_range.mp hi))]
    simp [satCount3]

/-- Witness for C2: the concrete files `fileA` (one epoch, two
satellites) and `fileB` (one epoch, three satellites). -/
theorem c2_row_count_witness :
    tblA.rows.length =
      ((List.range epochsA.length).map (satCount2 fileA epochsA)).sum ∧
    tblB.rows.length =
      ((List.range epochsB.length).map (satCount3 fileB epochsB)).sum :=
  c2_row_count fileA epochsA tblA fileB epochsB tblB rfl rfl (by decide)

/-- C10: in every accepted table of either reader, each row's sys column
is the first character of that row's prn column (for version 3/4 the prn
of an alignment-materialised all-NaN row is itself missing, and so is its
sys). -/
theorem c10_sys_prn (lines2 : List Line) (epochs2 : List (Nat × Nat)) (t2 : Table2)
    (lines3 : List Line) (epochs3 : List (Nat × Nat)) (t3 : Table3)
    (h2 : read_rinex2_obs lines2 epochs2 none = .ok t2)
    (h3 : read_rinex3_obs lines3 epochs3 none = .ok t3) :
    (∀ r ∈ t2.rows, r.sys = r.prn.head?) ∧
    (∀ r ∈ t3.rows, r.sys = r.prn.bind (fun p => p.head?)) := by
  constructor
  · rw [read2_none_eq] at h2
    obtain ⟨rowss, -, hr, hf⟩ := rawTable2_ok h2
    intro r hmem
    rw [hr] at hmem
    have hmem2 : r ∈ rowss.flatten := (List.perm_insertionSort _ _).mem_iff.mp hmem
    obtain ⟨rs, hrs, hrrs⟩ := List.mem_flatten.mp hmem2
    obtain ⟨i, _, hfi⟩ := forall2_mem_right hf hrs
    obtain ⟨ep0, nsat, lc, sats, ilend, hsf, rfl⟩ := epochRows2_some hfi
    obtain ⟨n, _, rfl⟩ := List.mem_map.mp hrrs
    rfl
  · rw [read3_none_eq] at h3
    obtain ⟨iEnd, nmax, hE, hD, hM, hne, hany, hrows⟩ := rawTable3_ok h3
    intro r hmem
    rw [hrows] at hmem
    obtain ⟨rs, hrs, hrrs⟩ := List.mem_flatten.mp hmem
    obtain ⟨i, hi, rfl⟩ := List.mem_map.mp hrs
    obtain ⟨k, hk, rfl⟩ := List.mem_map.mp hrrs
    cases hlk : List.lookup k
        (groupedOf t3.dict ((blockOf3 lines3 epochs3 i).map (parseLine3 nmax))) with
    | none => simp [hlk]
    | some row =>
      simp only [hlk]
      have hrow := mem_of_lookup_eq_some hlk
      obtain ⟨e, _, p, _, _, hpair⟩ := groupedOf_mem hrow
      have hroweq : row = mkRow3 e p.2 := congrArg Prod.snd hpair
      rw [hroweq]
      rfl

/-- Witness for C10: the concrete files `fileA` and `fileB`. -/
theorem c10_sys_prn_witness :
    (∀ r ∈ tblA.rows, r.sys = r.prn.head?) ∧
    (∀ r ∈ tblB.rows, r.sys = r.prn.bind (fun p => p.head?)) :=
  c10_sys_prn fileA epochsA tblA fileB epochsB tblB rfl rfl

/-- C8: in every accepted RINEX 3/4 table, a row labelled by a declared
system carries exactly that system's own column count of observable
cells, 3 per observable code of its catalog entry (plus the prn field
kept separately): the trailing fields parsed up to nobs_max are
discarded by the per-system truncation. -/
theorem c8_sys_columns (lines : List Line) (epochs : List (Nat × Nat)) (t : Table3)
    (h : read_rinex3_obs lines epochs none = .ok t) :
    ∀ r ∈ t.rows, ∀ k, r.sysKey = some k →
      (t.dict.find? (fun x => x.key == k)).isSome = true ∧
      r.cells.length = 3 * (dictFind t.dict k).codes.length := by
  rw [read3_none_eq] at h
  obtain ⟨iEnd, nmax, hE, hD, hM, hne, hany, hrows⟩ := rawTable3_ok h
  have hnd := buildDict_nodup hD
  intro r hmem k hk
  rw [hrows] at hmem
  obtain ⟨rs, hrs, hrrs⟩ := List.mem_flatten.mp hmem
  obtain ⟨i, hi, rfl⟩ := List.mem_map.mp hrs
  obtain ⟨k0, hk0, rfl⟩ := List.mem_map.mp hrrs
  cases hlk : List.lookup k0
      (groupedOf t.dict ((blockOf3 lines epochs i).map (parseLine3 nmax))) with
  | none => simp [hlk] at hk
  | some row =>
    simp only [hlk] at hk ⊢
    have hrowmem := mem_of_lookup_eq_some hlk
    obtain ⟨e, he, p, hp, hq, hpair⟩ := groupedOf_mem hrowmem
    have hroweq : row = mkRow3 e p.2 := congrArg Prod.snd hpair
    rw [hroweq] at hk ⊢
    have hek : e.key = k := by simpa [mkRow3] using hk
    subst hek
    have hfind := find?_key_of_mem hnd he
    refine ⟨by rw [hfind]; rfl, ?_⟩
    have hlen2 : p.2.2.length = 3 * nmax := by
      have hg := List.mem_enum_iff_getElem?.mp hp
      obtain ⟨hlt, hgeq⟩ := List.getElem?_eq_some_iff.mp hg
      rw [← hgeq, List.getElem_map]
      simp [parseLine3, sliceWidths_length, widthsRep_length]
    have hle : e.codes.length ≤ nmax := by
      rw [List.any_eq_false] at hany
      have := hany e he
      simp only [decide_eq_true_eq] at this
      omega
    simp only [mkRow3, dictFind, hfind, Option.getD_some, List.length_take, hlen2]
    omega

/-- Witness for C8: in `fileB`, the R01 row (table row 1) carries
3 cells, three per single observable of system R, although nobs_max is 2. -/
theorem c8_sys_columns_witness :
    (tblB.rows.getD 1 ⟨none, none, none, none, []⟩) ∈ tblB.rows ∧
    (tblB.rows.getD 1 ⟨none, none, none, none, []⟩).sysKey = some ((r"R").toList) ∧
    ((tblB.dict.find? (fun x => x.key == (r"R").toList)).isSome = true ∧
      (tblB.rows.getD 1 ⟨none, none, none, none, []⟩).cells.length =
        3 * (dictFind tblB.dict ((r"R").toList)).codes.length) :=
  ⟨by decide, by decide,
    c8_sys_columns fileB epochsB tblB rfl _ (by decide) _ (by decide)⟩

/-- C4 counterexample: in `fileB` the systems G and R are declared in
that order and the epoch block lists G01, R01, G02.  Per-epoch,
per-declared-system concatenation order would be G01, G02, R01 -- but the
returned rows are in original line order G01, R01, G02, because the
`pd.concat(..., axis=1)` that attaches the epoch column aligns on the row
index and thereby restores the original line order of the per-system
concatenation. -/
theorem c4_counterexample :
    (rows3Of (read_rinex3_obs fileB epochsB none)).map (fun r => r.prn) =
      [some ((r"G01").toList), some ((r"R01").toList), some ((r"G02").toList)] ∧
    ¬ ((rows3Of (read_rinex3_obs fileB epochsB none)).map (fun r => r.prn) =
      [some ((r"G01").toList), some ((r"G02").toList), some ((r"R01").toList)]) := by
  constructor
  · decide
  · decide

/-- C4 amended: with `set_index` omitted, the RINEX 2 table is sorted
ascending by (epoch, prn), and the RINEX 3/4 table preserves, within each
epoch in order, the original line order of the satellites (each row being
its line's own system-labelled row) -- not the per-declared-system
concatenation order, which the index alignment of the epoch column
undoes.  Both tables use a plain 0-based positional row index (lists are
positionally indexed here; `reset_index(drop=True)` discards nothing
else).  The version 3/4 part assumes every body line's system is declared
(otherwise alignment materialises all-NaN rows). -/
theorem c4_amended (lines2 : List Line) (epochs2 : List (Nat × Nat)) (t2 : Table2)
    (lines3 : List Line) (epochs3 : List (Nat × Nat)) (t3 : Table3) (nmax : Nat)
    (h2 : read_rinex2_obs lines2 epochs2 none = .ok t2)
    (h3 : read_rinex3_obs lines3 epochs3 none = .ok t3)
    (hM : (t3.dict.map (fun e => e.cnt)).max? = some nmax)
    (hall : ∀ i, i < epochs3.length → ∀ l ∈ blockOf3 lines3 epochs3 i,
      (t3.dict.find? (fun e => sysTok l == e.key)).isSome = true) :
    List.Sorted (fun a b => rowLe2 a b = true) t2.rows ∧
    t3.rows = specRows3 t3.dict nmax lines3 epochs3 := by
  constructor
  · rw [read2_none_eq] at h2
    obtain ⟨rowss, -, hr, -⟩ := rawTable2_ok h2
    rw [hr]
    haveI : IsTotal Row2 (fun a b => rowLe2 a b = true) := ⟨rowLe2_total⟩
    haveI : IsTrans Row2 (fun a b => rowLe2 a b = true) := ⟨rowLe2_trans⟩
    exact List.sorted_insertionSort _ _
  · rw [read3_none_eq] at h3
    obtain ⟨iEnd, nmax', hE, hD, hM', hne, hany, hrows⟩ := rawTable3_ok h3
    have hnmax : nmax' = nmax := by
      rw [hM'] at hM
      exact Option.some_inj.mp hM
    subst hnmax
    have hnd := buildDict_nodup hD
    rw [hrows]
    unfold specRows3
    congr 1
    apply List.map_congr_left
    intro i hi
    exact epochRows3_noDrop _ _ _ _ hnd (hall i (List.mem_range.mp hi))

/-- Witness for the amended C4: the concrete files `fileA` and `fileB`. -/
theorem c4_amended_witness :
    List.Sorted (fun a b => rowLe2 a b = true) tblA.rows ∧
    tblB.rows = specRows3 tblB.dict 2 fileB epochsB :=
  c4_amended fileA epochsA tblA fileB epochsB tblB 2 rfl rfl (by decide) (by decide)

/-- C5 counterexample: re-keying `fileA` by the non-unique column `sys`
(both rows are system G) succeeds -- no error is surfaced -- and the
returned table is keyed by the ambiguous key: the two key values are
duplicates.  Pandas `set_index` does not verify key uniqueness. -/
theorem c5_counterexample :
    err2Of (read_rinex2_obs fileA epochsA (some [ColSel.sys])) = none ∧
    (rows2Of (read_rinex2_obs fileA epochsA (some [ColSel.sys]))).length = 2 ∧
    ¬ ((rows2Of (read_rinex2_obs fileA epochsA (some [ColSel.sys]))).map
        (fun r => keyOf2 (names2Of (read_rinex2_obs fileA epochsA (some [ColSel.sys])))
          [ColSel.sys] r)).Nodup := by
  refine ⟨by decide, by decide, by decide⟩

/-- C5 amended: a caller-supplied non-empty `set_index` key whose columns
exist never fails, unique or not: the reader returns the flat table
re-keyed and sorted by that key (pandas `set_index` runs with
`verify_integrity=False`, so ambiguous keys are accepted silently). -/
theorem c5_amended (lines2 : List Line) (epochs2 : List (Nat × Nat)) (t2 : Table2)
    (sels2 : List ColSel)
    (lines3 : List Line) (epochs3 : List (Nat × Nat)) (t3 : Table3)
    (sels3 : List ColSel)
    (h2 : read_rinex2_obs lines2 epochs2 none = .ok t2)
    (hne2 : sels2.isEmpty = false)
    (hv2 : sels2.all (selValid2 t2.names) = true)
    (h3 : read_rinex3_obs lines3 epochs3 none = .ok t3)
    (hne3 : sels3.isEmpty = false)
    (hv3 : sels3.all (selValid3 t3.dict) = true) :
    read_rinex2_obs lines2 epochs2 (some sels2) =
      .ok ⟨t2.names, t2.rows.insertionSort
        (fun a b => keysLe (keyOf2 t2.names sels2 a) (keyOf2 t2.names sels2 b) = true)⟩ ∧
    read_rinex3_obs lines3 epochs3 (some sels3) =
      .ok ⟨t3.dict, t3.rows.insertionSort
        (fun a b => keysLe (keyOf3 t3.dict sels3 a) (keyOf3 t3.dict sels3 b) = true)⟩ := by
  rw [read2_none_eq] at h2
  rw [read3_none_eq] at h3
  constructor
  · unfold read_rinex2_obs applyIdx2
    rw [h2]
    simp only [hne2, Bool.false_eq_true, if_false, hv2, if_true]
  · unfold read_rinex3_obs applyIdx3
    rw [h3]
    simp only [hne3, Bool.false_eq_true, if_false, hv3, if_true]

/-- Witness for the amended C5: re-keying `fileA` by the (duplicated)
sys column and `fileB` by the prn column both succeed and sort. -/
theorem c5_amended_witness :
    read_rinex2_obs fileA epochsA (some [ColSel.sys]) =
      .ok ⟨tblA.names, tblA.rows.insertionSort
        (fun a b => keysLe (keyOf2 tblA.names [ColSel.sys] a)
          (keyOf2 tblA.names [ColSel.sys] b) = true)⟩ ∧
    read_rinex3_obs fileB epochsB (some [ColSel.prn]) =
      .ok ⟨tblB.dict, tblB.rows.insertionSort
        (fun a b => keysLe (keyOf3 tblB.dict [ColSel.prn] a)
          (keyOf3 tblB.dict [ColSel.prn] b) = true)⟩ :=
  c5_amended fileA epochsA tblA [ColSel.sys] fileB epochsB tblB [ColSel.prn]
    rfl rfl (by decide) rfl rfl (by decide)

/-- C7 counterexample: in a fixed-width read of the two records
`[obsL2c, obsL2b]`, the first record's first field holds the non-blank,
unparseable text "abc".  Pandas does not turn it into a missing value:
the column falls back to object dtype, the cell keeps the stripped text
"abc", and even the other record's numeric-looking field "11.5" in the
same column stays a string -- refuting the claim that every blank *or
unparseable* width-14 field becomes a missing value. -/
theorem c7_counterexample :
    trim ((sliceWidths (widthsRep 2) obsL2c).getD 0 []) = (r"abc").toList ∧
    parseDecimal ((r"abc").toList) = none ∧
    ((fwfGrid (widthsRep 2) [obsL2c, obsL2b]).getD 0 []).getD 0 .missing =
      .str ((r"abc").toList) ∧
    ¬ (((fwfGrid (widthsRep 2) [obsL2c, obsL2b]).getD 0 []).getD 0 .missing =
      Fld.missing) ∧
    ((fwfGrid (widthsRep 2) [obsL2c, obsL2b]).getD 1 []).getD 0 .missing =
      .str ((r"11.5").toList) := by
  refine ⟨by decide, by decide, by decide, by decide, by decide⟩

/-- C7 amended: a *blank* width-14 field (value or indicator) decodes to
a missing value -- not zero and not an error -- without aborting the
record: the read always yields one full-width cell row per record line.
A *non-blank* field that does not parse as a number is not a missing
value: it is kept as its stripped text, the whole column falling back to
object dtype.  When every non-blank field of each column parses as a
number (well-formed RINEX observation data), the pandas conversion
coincides column-wise with the per-field numeric conversion
`cellsOfMerged` used by the reader pipeline. -/
theorem c7_amended :
    (∀ (w : List Nat) (ls : List Line),
      (fwfGrid w ls).length = ls.length ∧
      ∀ row ∈ fwfGrid w ls, row.length = w.length) ∧
    (∀ (w : List Nat) (ls : List Line) (i j : Nat), i < ls.length → j < w.length →
      trim ((sliceWidths w (ls.getD i [])).getD j []) = [] →
      ((fwfGrid w ls).getD i []).getD j .missing = .missing) ∧
    (∀ (w : List Nat) (ls : List Line) (i j : Nat), i < ls.length → j < w.length →
      trim ((sliceWidths w (ls.getD i [])).getD j []) ≠ [] →
      parseDecimal (trim ((sliceWidths w (ls.getD i [])).getD j [])) = none →
      ((fwfGrid w ls).getD i []).getD j .missing =
        .str (trim ((sliceWidths w (ls.getD i [])).getD j []))) ∧
    (∀ (nobs : Nat) (ls : List Line),
      (∀ j, j < 3 * nobs →
        (colRaw (widthsRep nobs) j ls).all
          (fun s => s.isEmpty || (parseDecimal s).isSome) = true) →
      ∀ i, i < ls.length →
        (fwfGrid (widthsRep nobs) ls).getD i [] =
          (cellsOfMerged nobs (ls.getD i [])).map fldOfOpt) := by
  refine ⟨?_, ?_, ?_, ?_⟩
  · intro w ls
    constructor
    · simp [fwfGrid]
    · intro row hrow
      simp only [fwfGrid, List.mem_map] at hrow
      obtain ⟨i, -, rfl⟩ := hrow
      simp
  · intro w ls i j hi hj hblank
    rw [fwfGrid_cell w ls i j hi hj]
    cases hall : (colRaw w j ls).all (fun s => s.isEmpty || (parseDecimal s).isSome) with
    | true =>
      rw [convertCol_getD_num _ _ (by simpa [colRaw] using hi) hall,
        colRaw_getD _ _ _ _ hi, hblank]
      rfl
    | false =>
      rw [convertCol_getD_obj _ _ (by simpa [colRaw] using hi) hall,
        colRaw_getD _ _ _ _ hi, hblank]
      rfl
  · intro w ls i j hi hj hnb hnp
    rw [fwfGrid_cell w ls i j hi hj]
    have hmem : trim ((sliceWidths w (ls.getD i [])).getD j []) ∈ colRaw w j ls := by
      rw [← colRaw_getD w j ls i hi]
      rw [List.getD_eq_getElem _ _ (by simpa [colRaw] using hi)]
      exact List.getElem_mem _
    have hfalse : (colRaw w j ls).all
        (fun s => s.isEmpty || (parseDecimal s).isSome) = false := by
      rw [List.all_eq_false]
      refine ⟨_, hmem, ?_⟩
      intro hcontra
      simp only [Bool.or_eq_true, List.isEmpty_iff, Option.isSome_iff_exists]
        at hcontra
      rcases hcontra with hc | ⟨q, hq⟩
      · exact hnb hc
      · rw [hnp] at hq
        cases hq
    rw [convertCol_getD_obj _ _ (by simpa [colRaw] using hi) hfalse,
      colRaw_getD _ _ _ _ hi, if_neg hnb]
  · intro nobs ls hnum i hi
    rw [fwfGrid_row _ _ _ hi]
    apply List.ext_getElem
    · simp [cellsOfMerged, sliceWidths_length, widthsRep_length]
    · intro j h1 h2
      have hj : j < 3 * nobs := by
        simpa [widthsRep_length] using h1
      have hj2 : j < (sliceWidths (widthsRep nobs) (ls.getD i [])).length := by
        rw [sliceWidths_length, widthsRep_length]; exact hj
      simp only [List.getElem_map, List.getElem_range]
      rw [convertCol_getD_num _ _ (by simpa [colRaw] using hi)
        (hnum j (by simpa [widthsRep_length] using hj)),
        colRaw_getD _ _ _ _ hi]
      rw [List.getD_eq_getElem _ _ hj2]
      simp [cellsOfMerged, parseField]

/-- Witness for the amended C7: on the concrete records the blank LLI
field of `obsL2c` is missing, its unparseable "abc" field is kept as
text, and on the all-numeric records `[obsL2a, obsL2b]` the pandas grid
row equals the pipeline's `cellsOfMerged` conversion. -/
theorem c7_amended_witness :
    (fwfGrid (widthsRep 2) [obsL2c, obsL2b]).length = 2 ∧
    ((fwfGrid (widthsRep 2) [obsL2c, obsL2b]).getD 0 []).getD 1 .missing =
      .missing ∧
    ((fwfGrid (widthsRep 2) [obsL2c, obsL2b]).getD 0 []).getD 0 .missing =
      .str (trim ((sliceWidths (widthsRep 2) ([obsL2c, obsL2b].getD 0 [])).getD 0 [])) ∧
    (fwfGrid (widthsRep 2) [obsL2a, obsL2b]).getD 0 [] =
      (cellsOfMerged 2 ([obsL2a, obsL2b].getD 0 [])).map fldOfOpt :=
  ⟨(c7_amended.1 (widthsRep 2) [obsL2c, obsL2b]).1,
    c7_amended.2.1 (widthsRep 2) [obsL2c, obsL2b] 0 1 (by decide) (by decide)
      (by decide),
    c7_amended.2.2.1 (widthsRep 2) [obsL2c, obsL2b] 0 0 (by decide) (by decide)
      (by decide) (by decide),
    c7_amended.2.2.2 2 [obsL2a, obsL2b] (by decide) 0 (by decide)⟩

/-- Witness for C9: the concrete 13-satellite block `[epLine13, epCont13]`. -/
theorem c9_sats_find_13_witness :
    satsFind [epLine13, epCont13] =
      some (epLine13, 13, trim (epLine13.drop 32) ++ trim (epCont13.drop 32),
        chunk3 (trim (epLine13.drop 32) ++ trim (epCont13.drop 32)) 13, 1) ∧
    (chunk3 (trim (epLine13.drop 32) ++ trim (epCont13.drop 32)) 13).length = 13 ∧
    (∀ s ∈ chunk3 (trim (epLine13.drop 32) ++ trim (epCont13.drop 32)) 13, s.length = 3) ∧
    (chunk3 (trim (epLine13.drop 32) ++ trim (epCont13.drop 32)) 13).Nodup :=
  c9_sats_find_13 epLine13 epCont13 [] (by decide) (by decide) (by decide)
    (by decide) (by decide) (by decide)

end Rnx
